import Mathlib

set_option linter.all false

/-! # Verification of the mcp-github-server-plus manager layer

The remote GitHub service is modelled as oracle structures whose fields give
the responses of the wrapped client methods.  Manager operations are
translated from the Python source; each stateful operation additionally
returns the list of remote calls it issued, so that call-sequencing
properties can be stated and proved.  Python `Optional` values are `Option`,
Python truthiness tests on strings/lists are explicit emptiness tests, and
raised exceptions are `Except` errors carrying the exception message.
-/

/-- `FileContent` dataclass (files.py): the path and decoded content of a
file, plus optional metadata. -/
structure FileContent where
  path : String
  content : String
  sha : Option String := none
  encoding : String := "utf-8"
  size : Option Int := none
  type : Option String := none
  url : Option String := none
  html_url : Option String := none
  git_url : Option String := none
  download_url : Option String := none
  deriving DecidableEq

/-- `FilePath` dataclass (files.py): maps a repository path to a local
filesystem path. -/
structure FilePath where
  path : String
  filepath : String
  deriving DecidableEq

/-- `PushFilesContentConfig` dataclass (files.py). -/
structure PushFilesContentConfig where
  branch : String
  files : List FileContent
  message : String
  deriving DecidableEq

/-- `PushFilesFromPathConfig` dataclass (files.py). -/
structure PushFilesFromPathConfig where
  branch : String
  files : List FilePath
  message : String
  deriving DecidableEq

/-- One element of the tree payload built by `FileManager.create_tree`. -/
structure TreeElement where
  path : String
  mode : String
  type : String
  content : String
  deriving DecidableEq

/-- A PyGithub `GitRef`: reference name plus the SHA of the object it
points at. -/
structure GitRefObj where
  ref : String
  objectSha : String
  deriving DecidableEq

/-- A PyGithub `GitTree`: only its SHA is consumed by this code. -/
structure GitTreeObj where
  sha : String
  deriving DecidableEq

/-- A PyGithub `GitCommit` as consumed by `FileManager.create_commit`. -/
structure GitCommitObj where
  sha : String
  message : String
  treeSha : String
  parentShas : List String
  deriving DecidableEq

/-- The dictionary returned by `FileManager.create_commit`. -/
structure CommitInfo where
  sha : String
  message : String
  treeSha : String
  parentShas : List String
  deriving DecidableEq

/-- The dictionary returned by `FileManager.update_reference`. -/
structure RefInfo where
  ref : String
  objectSha : String
  deriving DecidableEq

/-- Remote calls issued by `FileManager` operations, in issue order. -/
inductive FCall where
  | getGitRef (ref : String)
  | createGitTree (tree : List TreeElement) (base : Option String)
  | createGitCommit (message : String) (tree : String) (parents : List String)
  | refEdit (ref : String) (sha : String) (force : Bool)
  deriving DecidableEq

/-- Oracle for the PyGithub `Repository` methods used by `FileManager`:
each field gives the remote response to one method. -/
structure FilesRemote where
  get_git_ref : String → GitRefObj
  create_git_tree : List TreeElement → Option String → GitTreeObj
  create_git_commit : String → String → List String → GitCommitObj

/-- `FileManager.create_tree` (files.py): one entry per file with mode
`100644` and type `blob`; a falsy `base_tree` is passed as `NotSet`
(modelled `none`). -/
def FileManager.create_tree (r : FilesRemote) (files : List FileContent)
    (base_tree : Option String) : GitTreeObj × List FCall :=
  let tree_elements := files.map fun f =>
    (⟨f.path, "100644", "blob", f.content⟩ : TreeElement)
  let bt : Option String := match base_tree with
    | some b => if b = "" then none else some b
    | none => none
  (r.create_git_tree tree_elements bt, [.createGitTree tree_elements bt])

/-- `FileManager.create_commit` (files.py): forwards to
`create_git_commit` and reshapes the result into a dictionary. -/
def FileManager.create_commit (r : FilesRemote) (message : String)
    (tree : String) (parents : List String) : CommitInfo × List FCall :=
  let commit := r.create_git_commit message tree parents
  (⟨commit.sha, commit.message, commit.treeSha, commit.parentShas⟩,
   [.createGitCommit message tree parents])

/-- `FileManager.update_reference` (files.py): fetches the reference, then
edits it to the given SHA (`force` defaults to `True` at the call sites
modelled here); the returned dictionary reflects the moved reference. -/
def FileManager.update_reference (r : FilesRemote) (ref : String)
    (sha : String) (force : Bool) : RefInfo × List FCall :=
  let git_ref := r.get_git_ref ref
  (⟨git_ref.ref, sha⟩, [.getGitRef ref, .refEdit ref sha force])

/-- `FileManager.push_files_content` (files.py): resolve the branch head,
build a tree on it, commit, then force-move the branch reference. -/
def FileManager.push_files_content (r : FilesRemote)
    (config : PushFilesContentConfig) : RefInfo × List FCall :=
  let ref := r.get_git_ref ("heads/" ++ config.branch)
  let commit_sha := ref.objectSha
  let tree := FileManager.create_tree r config.files (some commit_sha)
  let commit := FileManager.create_commit r config.message tree.1.sha [commit_sha]
  let res := FileManager.update_reference r ("heads/" ++ config.branch) commit.1.sha true
  (res.1, [FCall.getGitRef ("heads/" ++ config.branch)] ++ tree.2 ++ commit.2 ++ res.2)

/-- The local filesystem, as seen by `push_files_from_path`: a path is
mapped to its text content when the file exists. -/
def FileSystem : Type := String → Option String

/-- The read loop of `FileManager.push_files_from_path` (files.py): checks
existence and reads each listed local file in order, failing with the
`FileNotFoundError` message at the first missing path. -/
def readLocalFiles (fs : FileSystem) : List FilePath → Except String (List FileContent)
  | [] => .ok []
  | fp :: rest =>
    match fs fp.filepath with
    | none => .error ("File not found: " ++ fp.filepath)
    | some content =>
      match readLocalFiles fs rest with
      | .ok files => .ok ({ path := fp.path, content := content } :: files)
      | .error e => .error e

/-- `FileManager.push_files_from_path` (files.py): read every listed local
file, then delegate to `push_files_content`; no remote call happens when a
local read fails. -/
def FileManager.push_files_from_path (fs : FileSystem) (r : FilesRemote)
    (config : PushFilesFromPathConfig) : Except String RefInfo × List FCall :=
  match readLocalFiles fs config.files with
  | .error e => (.error e, [])
  | .ok files =>
    let res := FileManager.push_files_content r
      ⟨config.branch, files, config.message⟩
    (.ok res.1, res.2)

/-- C1: `push_files_content` on a branch whose head SHA is `H`, with a
non-empty file list, issues exactly one tree-create call (one entry per
file: path, mode `100644`, type `blob`, inline content; base tree `H`),
then exactly one commit-create call (the given message, the tree SHA just
returned, parents exactly `[H]`), then exactly one forced reference-update
of `heads/<branch>` to the new commit SHA — in that order, with the same
`H` captured once at the start used throughout. -/
theorem C1_push_files_content_pipeline (r : FilesRemote)
    (cfg : PushFilesContentConfig) (H : String)
    (hH : (r.get_git_ref ("heads/" ++ cfg.branch)).objectSha = H)
    (hne : H ≠ "") (hfiles : cfg.files ≠ []) :
    FileManager.push_files_content r cfg =
      (let entries := cfg.files.map fun f =>
        (⟨f.path, "100644", "blob", f.content⟩ : TreeElement)
       let t := r.create_git_tree entries (some H)
       let c := r.create_git_commit cfg.message t.sha [H]
       (⟨(r.get_git_ref ("heads/" ++ cfg.branch)).ref, c.sha⟩,
        [FCall.getGitRef ("heads/" ++ cfg.branch),
         FCall.createGitTree entries (some H),
         FCall.createGitCommit cfg.message t.sha [H],
         FCall.getGitRef ("heads/" ++ cfg.branch),
         FCall.refEdit ("heads/" ++ cfg.branch) c.sha true])) := by
  subst hH
  unfold FileManager.push_files_content FileManager.create_tree
    FileManager.create_commit FileManager.update_reference
  simp [hne]

/-- A concrete remote used to witness the file-push theorems. -/
def filesRemoteW : FilesRemote where
  get_git_ref := fun s => ⟨"refs/" ++ s, "1111111111111111111111111111111111111111"⟩
  create_git_tree := fun es b => ⟨"tree0-" ++ b.getD "" ++ toString es.length⟩
  create_git_commit := fun m t ps => ⟨"commit0-" ++ t, m, t, ps⟩

/-- Witness for C1 at a concrete remote, branch head and two files. -/
theorem C1_push_files_content_pipeline_witness :
    FileManager.push_files_content filesRemoteW
      ⟨"main", [{ path := "a.txt", content := "A" }, { path := "b.txt", content := "B" }], "msg"⟩ =
      (let entries := [({ path := "a.txt", content := "A" } : FileContent),
        { path := "b.txt", content := "B" }].map fun f =>
          (⟨f.path, "100644", "blob", f.content⟩ : TreeElement)
       let t := filesRemoteW.create_git_tree entries
         (some "1111111111111111111111111111111111111111")
       let c := filesRemoteW.create_git_commit "msg" t.sha
         ["1111111111111111111111111111111111111111"]
       (⟨(filesRemoteW.get_git_ref ("heads/" ++ "main")).ref, c.sha⟩,
        [FCall.getGitRef ("heads/" ++ "main"),
         FCall.createGitTree entries (some "1111111111111111111111111111111111111111"),
         FCall.createGitCommit "msg" t.sha ["1111111111111111111111111111111111111111"],
         FCall.getGitRef ("heads/" ++ "main"),
         FCall.refEdit ("heads/" ++ "main") c.sha true])) :=
  C1_push_files_content_pipeline filesRemoteW
    ⟨"main", [{ path := "a.txt", content := "A" }, { path := "b.txt", content := "B" }], "msg"⟩
    "1111111111111111111111111111111111111111" rfl (by decide) (by decide)

/-- The read loop errors as soon as some listed local path is missing. -/
lemma readLocalFiles_error_of_missing (fs : FileSystem) :
    ∀ l : List FilePath, (∃ fp ∈ l, fs fp.filepath = none) →
      ∃ e, readLocalFiles fs l = .error e := by
  intro l
  induction l with
  | nil => rintro ⟨fp, h, _⟩; cases h
  | cons fp rest ih =>
    rintro ⟨fq, hq, hnone⟩
    rcases List.mem_cons.mp hq with hq | hq
    · subst hq
      exact ⟨"File not found: " ++ fq.filepath, by simp [readLocalFiles, hnone]⟩
    · obtain ⟨e, he⟩ := ih ⟨fq, hq, hnone⟩
      cases hfp : fs fp.filepath with
      | none => exact ⟨"File not found: " ++ fp.filepath, by simp [readLocalFiles, hfp]⟩
      | some c => exact ⟨e, by simp [readLocalFiles, hfp, he]⟩

/-- When every listed local path exists, the read loop returns the files in
list order, pairing each repository path with the text read from disk. -/
lemma readLocalFiles_ok_of_all (fs : FileSystem) :
    ∀ l : List FilePath, (∀ fp ∈ l, (fs fp.filepath).isSome) →
      readLocalFiles fs l = .ok (l.map fun fp =>
        { path := fp.path, content := (fs fp.filepath).getD "" }) := by
  intro l
  induction l with
  | nil => intro _; rfl
  | cons fp rest ih =>
    intro h
    have hfp := h fp (List.mem_cons_self fp rest)
    cases hsome : fs fp.filepath with
    | none => rw [hsome] at hfp; cases hfp
    | some c =>
      have hrest := ih fun fq hq => h fq (List.mem_cons_of_mem fp hq)
      simp [readLocalFiles, hsome, hrest]

/-- C5: `push_files_from_path` with at least one missing local path fails
with the FileNotFoundError message and issues no remote call at all; when
every local path exists, it behaves exactly as `push_files_content`
applied to the read (path, content) pairs with the same branch and
message. -/
theorem C5_push_files_from_path_failfast (fs : FileSystem) (r : FilesRemote)
    (cfg : PushFilesFromPathConfig) :
    ((∃ fp ∈ cfg.files, fs fp.filepath = none) →
      (∃ e, (FileManager.push_files_from_path fs r cfg).1 = .error e) ∧
      (FileManager.push_files_from_path fs r cfg).2 = []) ∧
    ((∀ fp ∈ cfg.files, (fs fp.filepath).isSome) →
      FileManager.push_files_from_path fs r cfg =
        (let res := FileManager.push_files_content r
          ⟨cfg.branch, cfg.files.map fun fp =>
            { path := fp.path, content := (fs fp.filepath).getD "" }, cfg.message⟩
         (.ok res.1, res.2))) := by
  constructor
  · intro h
    obtain ⟨e, he⟩ := readLocalFiles_error_of_missing fs cfg.files h
    constructor
    · exact ⟨e, by simp [FileManager.push_files_from_path, he]⟩
    · simp [FileManager.push_files_from_path, he]
  · intro h
    have hok := readLocalFiles_ok_of_all fs cfg.files h
    simp [FileManager.push_files_from_path, hok]

/-- A concrete local filesystem holding exactly one file. -/
def fileSystemW : FileSystem := fun p => if p = "/tmp/a" then some "AA" else none

/-- Witness for C5: with both local files present, the push equals the
content push of the read pairs; with a missing file, no remote call. -/
theorem C5_push_files_from_path_failfast_witness :
    (FileManager.push_files_from_path fileSystemW filesRemoteW
      ⟨"main", [⟨"a.txt", "/tmp/a"⟩], "m"⟩ =
      (let res := FileManager.push_files_content filesRemoteW
        ⟨"main", [{ path := "a.txt", content := "AA" }], "m"⟩
       (.ok res.1, res.2))) ∧
    (FileManager.push_files_from_path fileSystemW filesRemoteW
      ⟨"main", [⟨"b.txt", "/tmp/missing"⟩], "m"⟩).2 = [] :=
  ⟨(C5_push_files_from_path_failfast fileSystemW filesRemoteW
      ⟨"main", [⟨"a.txt", "/tmp/a"⟩], "m"⟩).2 (by decide),
   ((C5_push_files_from_path_failfast fileSystemW filesRemoteW
      ⟨"main", [⟨"b.txt", "/tmp/missing"⟩], "m"⟩).1 (by decide)).2⟩

/-- Character class of the branch-name pattern in `validate_branch_name`
(utils.py): everything except ASCII control characters (0 to 31), DEL
(127), space, tilde, caret, colon, question mark, asterisk, opening square
bracket and backslash. -/
def branchCharOk (c : Char) : Bool :=
  !(c.toNat ≤ 31 || c.toNat == 127 || c == ' ' || c == '~' || c == '^' ||
    c == ':' || c == '?' || c == '*' || c == '[' || c == '\\')

/-- The lookahead `.*\.\.` of the branch-name pattern: it succeeds exactly
when two consecutive dots occur with no newline anywhere before them
(`.` does not cross newlines in Python re). -/
def dotDotReachable : List Char → Bool
  | '.' :: '.' :: _ => true
  | '\n' :: _ => false
  | _ :: rest => dotDotReachable rest
  | [] => false

/-- End-of-match candidates for `$` in Python re without MULTILINE: the
end of the string, or just before one final newline. -/
def dollarCandidates (l : List Char) : List (List Char) :=
  if l.getLast? = some '\n' then [l, l.dropLast] else [l]

/-- Match of the mandatory part of the branch-name pattern on one
candidate region: one or more characters of the class, then a final
character that is not a dot, with a lookbehind rejecting a `.lock`
ending. -/
def branchTail (t : List Char) : Bool :=
  decide (2 ≤ t.length) && t.dropLast.all branchCharOk &&
    (match t.getLast? with | some c => c != '.' | none => false) &&
    !(List.isSuffixOf (".lock".data) t)

/-- `validate_branch_name` (utils.py): Python `re.match` of the pattern
with, in order, a lookahead rejecting a leading dot or slash, a lookahead
rejecting reachable double dots, then the character-class body, translated
clause by clause. -/
def validate_branch_name (name : String) : Bool :=
  let l := name.data
  let starts : Bool := match l with
    | '.' :: _ => true
    | '/' :: _ => true
    | _ => false
  !starts && !dotDotReachable l && (dollarCandidates l).any branchTail

/-- C2 evidence: the validator accepts a name with a trailing slash, a
name containing an at-sign followed by an opening brace, and a name whose
final character is an ASCII control character, although its own
documentation comment and the spec require all three to be rejected; it
does reject double dots, a leading dot and a trailing `.lock`. -/
theorem C2_validate_branch_name_gaps :
    validate_branch_name "ab/" = true ∧
    validate_branch_name "a@\x7bb" = true ∧
    validate_branch_name "ab\x01" = true ∧
    validate_branch_name "a..b" = false ∧
    validate_branch_name ".ab" = false ∧
    validate_branch_name "a.lock" = false := by
  refine ⟨?_, ?_, ?_, ?_, ?_, ?_⟩ <;> decide

/-- A PyGithub `Branch`: its name and head commit SHA. -/
structure BranchObj where
  name : String
  commitSha : String
  deriving DecidableEq

/-- Python substring membership `n in h` on character lists. -/
def listContainsSub (n : List Char) : List Char → Bool
  | [] => n.isEmpty
  | c :: rest => n.isPrefixOf (c :: rest) || listContainsSub n rest

/-- Python substring membership `needle in hay` on strings. -/
def strContains (hay needle : String) : Bool := listContainsSub needle.data hay.data

/-- Oracle for the repository methods used by `BranchManager.get_branch`:
the branch lookup response before and after the seed commit, the commit
list, and the default branch name. -/
structure BranchesRemote where
  get_branch_first : String → Except String BranchObj
  get_branch_retry : String → Except String BranchObj
  commits : List String
  default_branch : String

/-- Remote calls issued by `BranchManager.get_branch`, in issue order. -/
inductive BAction where
  | getBranch (name : String)
  | getCommits
  | createFile (path : String) (message : String) (content : String) (branch : String)
  deriving DecidableEq

/-- `BranchManager.get_branch` (branches.py): on a failure whose message
contains `Branch not found`, and only when the repository has zero
commits, create one seed README commit on the default branch and retry the
lookup once; any other failure re-raises the original error. -/
def BranchManager.get_branch (r : BranchesRemote) (branch : String) :
    Except String BranchObj × List BAction :=
  match r.get_branch_first branch with
  | .ok b => (.ok b, [.getBranch branch])
  | .error e =>
    if strContains e "Branch not found" then
      if r.commits.isEmpty then
        (r.get_branch_retry branch,
         [.getBranch branch, .getCommits,
          .createFile "README.md" "Initial commit"
            "# Repository\nInitialized by BranchManager" r.default_branch,
          .getBranch branch])
      else (.error e, [.getBranch branch, .getCommits])
    else (.error e, [.getBranch branch])

/-- C3: when `get_branch` fails, three exhaustive failure cases: with the
not-found marker on a zero-commit repository, exactly one seed README
commit on the default branch and exactly one retry, whose response — even
another failure — is returned as is (no second seed, no second retry);
with the marker on a non-empty repository, the original error propagates
after only the commit-list read; without the marker, the original error
propagates with no recovery action. -/
theorem C3_get_branch_selfheal (r : BranchesRemote) (branch e : String)
    (h : r.get_branch_first branch = .error e) :
    (strContains e "Branch not found" = true → r.commits = [] →
      BranchManager.get_branch r branch =
        (r.get_branch_retry branch,
         [BAction.getBranch branch, BAction.getCommits,
          BAction.createFile "README.md" "Initial commit"
            "# Repository\nInitialized by BranchManager" r.default_branch,
          BAction.getBranch branch])) ∧
    (strContains e "Branch not found" = true → r.commits ≠ [] →
      BranchManager.get_branch r branch =
        (.error e, [BAction.getBranch branch, BAction.getCommits])) ∧
    (strContains e "Branch not found" = false →
      BranchManager.get_branch r branch = (.error e, [BAction.getBranch branch])) := by
  refine ⟨fun hm hc => ?_, fun hm hc => ?_, fun hm => ?_⟩
  · simp [BranchManager.get_branch, h, hm, hc, List.isEmpty_iff]
  · simp [BranchManager.get_branch, h, hm, hc, List.isEmpty_iff]
  · simp [BranchManager.get_branch, h, hm]

/-- A concrete remote for the C3 witness: the first lookup fails with the
not-found marker on an empty repository, the retry succeeds. -/
def branchesRemoteW : BranchesRemote where
  get_branch_first := fun _ => .error "404 Branch not found"
  get_branch_retry := fun n => .ok ⟨n, "2222222222222222222222222222222222222222"⟩
  commits := []
  default_branch := "main"

/-- Witness for C3 on the self-heal case at a concrete remote. -/
theorem C3_get_branch_selfheal_witness :
    BranchManager.get_branch branchesRemoteW "feature" =
      (branchesRemoteW.get_branch_retry "feature",
       [BAction.getBranch "feature", BAction.getCommits,
        BAction.createFile "README.md" "Initial commit"
          "# Repository\nInitialized by BranchManager" branchesRemoteW.default_branch,
        BAction.getBranch "feature"]) :=
  (C3_get_branch_selfheal branchesRemoteW "feature" "404 Branch not found" rfl).1
    (by decide) rfl

/-- A PyGithub `Workflow`: its numeric id and file path. -/
structure WorkflowObj where
  id : Nat
  path : String
  deriving DecidableEq

/-- Python `str.isdigit` on ASCII input: non-empty and all digits. -/
def pyIsDigit (s : String) : Bool := !s.data.isEmpty && s.data.all Char.isDigit

/-- Python `int(s)` on a digit string. -/
def digitsToNat (s : String) : Nat :=
  s.data.foldl (fun n c => n * 10 + (c.toNat - 48)) 0

/-- Python `str.endswith`. -/
def strEndsWith (s suff : String) : Bool := List.isSuffixOf suff.data s.data

/-- Oracle for the repository methods used by `ActionManager.get_workflow`:
the numeric-id lookup and the workflow listing (each may raise, carrying
the exception message). -/
structure ActionsRemote where
  get_workflow_by_id : Nat → Except String WorkflowObj
  get_workflows : Except String (List WorkflowObj)

/-- Error taxonomy of common/errors.py as used by the action manager. -/
inductive GHErr where
  | notFound (msg : String)
  | github (msg : String)
  deriving DecidableEq

/-- The try-block body of `ActionManager.get_workflow` (actions.py): a
pure-digit id is looked up numerically; otherwise the workflows are listed
and the first whose path ends with the input is returned; with no match a
NotFoundError carrying `Workflow not found: <id>` is raised.  The error
string is the raised exception message. -/
def ActionManager.get_workflow_body (r : ActionsRemote) (workflow_id : String) :
    Except String WorkflowObj :=
  if pyIsDigit workflow_id then
    r.get_workflow_by_id (digitsToNat workflow_id)
  else
    match r.get_workflows with
    | .error e => .error e
    | .ok workflows =>
      match workflows.find? (fun w => strEndsWith w.path workflow_id) with
      | some w => .ok w
      | none => .error ("Workflow not found: " ++ workflow_id)

/-- `ActionManager.get_workflow` (actions.py): the except-clause
classifies any exception from the body by the case-sensitive substring
`Not Found`, re-raising as NotFoundError on a hit and otherwise wrapping
as `GitHubError` with `Error getting workflow: ` prepended. -/
def ActionManager.get_workflow (r : ActionsRemote) (workflow_id : String) :
    Except GHErr WorkflowObj :=
  match ActionManager.get_workflow_body r workflow_id with
  | .ok w => .ok w
  | .error e =>
    if strContains e "Not Found" then
      .error (.notFound ("Workflow not found: " ++ workflow_id))
    else
      .error (.github ("Error getting workflow: " ++ e))

/-- A concrete remote for C4: one workflow, numeric lookup succeeding for
id 123 and failing with a `Not Found` message otherwise. -/
def actionsRemoteW : ActionsRemote where
  get_workflow_by_id := fun n =>
    if n = 123 then .ok ⟨123, ".github/workflows/ci.yml"⟩ else .error "404 Not Found"
  get_workflows := .ok [⟨17, ".github/workflows/ci.yml"⟩]

/-- C4 evidence: digit input is looked up numerically and filename input
matched by path suffix, but when no workflow matches, the internally
raised NotFoundError message `Workflow not found: <id>` does not contain
the case-sensitive marker `Not Found`, so the except-clause wraps it into
a generic `GitHubError` instead of the NotFoundError the docstring and the
spec promise. -/
theorem C4_get_workflow_no_match_wraps_as_GitHubError :
    ActionManager.get_workflow actionsRemoteW "123" =
      .ok ⟨123, ".github/workflows/ci.yml"⟩ ∧
    ActionManager.get_workflow actionsRemoteW "999" =
      .error (.notFound ("Workflow not found: " ++ "999")) ∧
    ActionManager.get_workflow actionsRemoteW "ci.yml" =
      .ok ⟨17, ".github/workflows/ci.yml"⟩ ∧
    ActionManager.get_workflow actionsRemoteW "missing.yml" =
      .error (.github ("Error getting workflow: " ++ "Workflow not found: missing.yml")) :=
  ⟨rfl, rfl, rfl, rfl⟩

/-- A remote paginated result: its fully materialized items and its
per-page fetch method `get_page`. -/
structure PaginatedList (α : Type) where
  items : List α
  page : Int → List α

/-- Python list slicing `l[:n]`: a negative stop counts from the end. -/
def pySliceTo (l : List α) (n : Int) : List α :=
  if 0 ≤ n then l.take n.toNat else l.take (l.length - (-n).toNat)

/-- `ListCommitsConfig` (commits.py). -/
structure ListCommitsConfig where
  branch : Option String := none
  path : Option String := none
  page : Option Int := none
  per_page : Option Int := none
  deriving DecidableEq

/-- Remote calls issued by `CommitManager.list_commits`. -/
inductive CCall where
  | getCommits (sha : Option String) (path : Option String)
  | getPage (page : Int)
  deriving DecidableEq

/-- Oracle for the repository methods used by `CommitManager.list_commits`:
`none` arguments model `NotSet`. -/
structure CommitsRemote (α : Type) where
  get_commits : Option String → Option String → PaginatedList α

/-- `CommitManager.list_commits` (commits.py): unset filters become
`NotSet`; an explicit page is fetched with `get_page`, else an explicit
per-page limit truncates the materialized list client-side, else the whole
list is materialized. -/
def CommitManager.list_commits (r : CommitsRemote α) (config : ListCommitsConfig) :
    List α × List CCall :=
  let commits := r.get_commits config.branch config.path
  match config.page with
  | some p => (commits.page p, [.getCommits config.branch config.path, .getPage p])
  | none =>
    match config.per_page with
    | some k => (pySliceTo commits.items k, [.getCommits config.branch config.path])
    | none => (commits.items, [.getCommits config.branch config.path])

/-- `SearchRepositoryConfig` (repository.py). -/
structure SearchRepositoryConfig where
  query : String
  sort : Option String := none
  order : Option String := none
  page : Option Int := none
  per_page : Option Int := none
  deriving DecidableEq

/-- Remote calls issued by `RepositoryManager.search_repositories`. -/
inductive SCall where
  | search (query : String) (sort : Option String) (order : Option String)
  | getPage (page : Int)
  deriving DecidableEq

/-- Oracle for the client methods used by
`RepositoryManager.search_repositories`. -/
structure SearchRemote (β : Type) where
  search_repositories : String → Option String → Option String → PaginatedList β

/-- `RepositoryManager.search_repositories` (repository.py): unset sort
and order become `NotSet`; pagination is handled exactly as in
`list_commits`. -/
def RepositoryManager.search_repositories (r : SearchRemote β)
    (config : SearchRepositoryConfig) : List β × List SCall :=
  let repos := r.search_repositories config.query config.sort config.order
  match config.page with
  | some p => (repos.page p, [.search config.query config.sort config.order, .getPage p])
  | none =>
    match config.per_page with
    | some k => (pySliceTo repos.items k, [.search config.query config.sort config.order])
    | none => (repos.items, [.search config.query config.sort config.order])

/-- C6: for both list operations, an explicit page number is forwarded
verbatim to the page-fetch method and its result returned as is; else a
per-page limit (non-negative, as schema-validated) returns exactly the
first per-page items of the materialized sequence; else the whole sequence
is materialized and returned. -/
theorem C6_pagination (α β : Type) (rc : CommitsRemote α) (rs : SearchRemote β)
    (cc : ListCommitsConfig) (sc : SearchRepositoryConfig) :
    (∀ p, cc.page = some p →
      CommitManager.list_commits rc cc =
        ((rc.get_commits cc.branch cc.path).page p,
         [CCall.getCommits cc.branch cc.path, CCall.getPage p])) ∧
    (∀ k, cc.page = none → cc.per_page = some k → 0 ≤ k →
      CommitManager.list_commits rc cc =
        ((rc.get_commits cc.branch cc.path).items.take k.toNat,
         [CCall.getCommits cc.branch cc.path])) ∧
    (cc.page = none → cc.per_page = none →
      CommitManager.list_commits rc cc =
        ((rc.get_commits cc.branch cc.path).items,
         [CCall.getCommits cc.branch cc.path])) ∧
    (∀ p, sc.page = some p →
      RepositoryManager.search_repositories rs sc =
        ((rs.search_repositories sc.query sc.sort sc.order).page p,
         [SCall.search sc.query sc.sort sc.order, SCall.getPage p])) ∧
    (∀ k, sc.page = none → sc.per_page = some k → 0 ≤ k →
      RepositoryManager.search_repositories rs sc =
        ((rs.search_repositories sc.query sc.sort sc.order).items.take k.toNat,
         [SCall.search sc.query sc.sort sc.order])) ∧
    (sc.page = none → sc.per_page = none →
      RepositoryManager.search_repositories rs sc =
        ((rs.search_repositories sc.query sc.sort sc.order).items,
         [SCall.search sc.query sc.sort sc.order])) := by
  refine ⟨fun p hp => ?_, fun k h1 h2 hk => ?_, fun h1 h2 => ?_,
    fun p hp => ?_, fun k h1 h2 hk => ?_, fun h1 h2 => ?_⟩
  · simp [CommitManager.list_commits, hp]
  · simp [CommitManager.list_commits, h1, h2, pySliceTo, hk]
  · simp [CommitManager.list_commits, h1, h2]
  · simp [RepositoryManager.search_repositories, hp]
  · simp [RepositoryManager.search_repositories, h1, h2, pySliceTo, hk]
  · simp [RepositoryManager.search_repositories, h1, h2]

/-- A concrete commits remote with ten available items. -/
def commitsRemoteW : CommitsRemote Nat where
  get_commits := fun _ _ => ⟨List.range 10, fun p => [p.toNat * 100]⟩

/-- A concrete search remote with four available items. -/
def searchRemoteW : SearchRemote Nat where
  search_repositories := fun _ _ _ => ⟨[7, 8, 9, 10], fun p => [p.toNat]⟩

/-- Witness for C6: per-page 3 of ten items yields exactly three items;
an explicit page 2 is forwarded to the page fetch and returned verbatim. -/
theorem C6_pagination_witness :
    CommitManager.list_commits commitsRemoteW { per_page := some 3 } =
      ([0, 1, 2], [CCall.getCommits none none]) ∧
    RepositoryManager.search_repositories searchRemoteW
      { query := "q", page := some 2 } =
      ([2], [SCall.search "q" none none, SCall.getPage 2]) :=
  ⟨(C6_pagination Nat Nat commitsRemoteW searchRemoteW
      { per_page := some 3 } { query := "q", page := some 2 }).2.1 3 rfl rfl (by decide),
   (C6_pagination Nat Nat commitsRemoteW searchRemoteW
      { per_page := some 3 } { query := "q", page := some 2 }).2.2.2.1 2 rfl⟩

/-- A PyGithub `Commit`: only its SHA is consumed here. -/
structure CommitObj where
  sha : String
  deriving DecidableEq

/-- The dictionary returned by `RepositoryManager.create_branch`. -/
structure CreateBranchResult where
  name : String
  sha : String
  deriving DecidableEq

/-- Remote calls issued by `RepositoryManager.create_branch`. -/
inductive RCall where
  | getBranch (name : String)
  | getCommit (sha : String)
  | createGitRef (ref : String) (sha : String)
  deriving DecidableEq

/-- Oracle for the repository methods used by
`RepositoryManager.create_branch`. -/
structure RepoRemote where
  get_branch : String → Except String BranchObj
  get_commit : String → Except String CommitObj
  create_git_ref : String → String → Except String GitRefObj

/-- The reference-creation step of `RepositoryManager.create_branch`
(repository.py): creates `refs/heads/<name>` at the resolved SHA and
reshapes the result; a failure is wrapped as a RepositoryError with
`Failed to create branch: ` prepended. -/
def RepositoryManager.createRefStep (r : RepoRemote) (name : String)
    (source_sha : String) : Except String CreateBranchResult × List RCall :=
  match r.create_git_ref ("refs/heads/" ++ name) source_sha with
  | .ok ref =>
    (.ok ⟨name, ref.objectSha⟩, [.createGitRef ("refs/heads/" ++ name) source_sha])
  | .error e =>
    (.error ("Failed to create branch: " ++ e),
     [.createGitRef ("refs/heads/" ++ name) source_sha])

/-- `RepositoryManager.create_branch` (repository.py), on a real (non-mock)
repository: resolve the source first as a branch head, then as a commit,
finally falling back to the raw source string as the SHA, and create the
new reference there. -/
def RepositoryManager.create_branch (r : RepoRemote) (name source : String) :
    Except String CreateBranchResult × List RCall :=
  match r.get_branch source with
  | .ok source_branch =>
    let step := RepositoryManager.createRefStep r name source_branch.commitSha
    (step.1, RCall.getBranch source :: step.2)
  | .error _ =>
    match r.get_commit source with
    | .ok commit =>
      let step := RepositoryManager.createRefStep r name commit.sha
      (step.1, RCall.getBranch source :: RCall.getCommit source :: step.2)
    | .error _ =>
      let step := RepositoryManager.createRefStep r name source
      (step.1, RCall.getBranch source :: RCall.getCommit source :: step.2)

/-- C7: the SHA at which the new reference is created is the head SHA of
the source branch when that lookup succeeds; otherwise the SHA of the
source resolved as a commit; otherwise the raw source string itself. -/
theorem C7_create_branch_sha_fallback (r : RepoRemote) (name source : String) :
    (∀ b, r.get_branch source = .ok b →
      RepositoryManager.create_branch r name source =
        (let step := RepositoryManager.createRefStep r name b.commitSha
         (step.1, RCall.getBranch source :: step.2))) ∧
    (∀ e c, r.get_branch source = .error e → r.get_commit source = .ok c →
      RepositoryManager.create_branch r name source =
        (let step := RepositoryManager.createRefStep r name c.sha
         (step.1, RCall.getBranch source :: RCall.getCommit source :: step.2))) ∧
    (∀ e e', r.get_branch source = .error e → r.get_commit source = .error e' →
      RepositoryManager.create_branch r name source =
        (let step := RepositoryManager.createRefStep r name source
         (step.1, RCall.getBranch source :: RCall.getCommit source :: step.2))) := by
  refine ⟨fun b hb => ?_, fun e c he hc => ?_, fun e e' he hc => ?_⟩
  · simp [RepositoryManager.create_branch, hb]
  · simp [RepositoryManager.create_branch, he, hc]
  · simp [RepositoryManager.create_branch, he, hc]

/-- A concrete remote for C7 on which both source lookups fail, so the raw
source string is used as the SHA. -/
def repoRemoteW : RepoRemote where
  get_branch := fun _ => .error "404 not a branch"
  get_commit := fun _ => .error "404 not a commit"
  create_git_ref := fun ref sha => .ok ⟨ref, sha⟩

/-- Witness for C7 at the deepest fallback: the new reference is created
at the raw source string. -/
theorem C7_create_branch_sha_fallback_witness :
    RepositoryManager.create_branch repoRemoteW "nb" "abc123" =
      (.ok ⟨"nb", "abc123"⟩,
       [RCall.getBranch "abc123", RCall.getCommit "abc123",
        RCall.createGitRef ("refs/heads/" ++ "nb") "abc123"]) :=
  (C7_create_branch_sha_fallback repoRemoteW "nb" "abc123").2.2
    "404 not a branch" "404 not a commit" rfl rfl

/-- `IssueConfig` dataclass (issues.py). -/
structure IssueConfig where
  title : String
  body : Option String := none
  assignees : Option (List String) := none
  labels : Option (List String) := none
  milestone : Option Int := none
  state : Option String := none
  deriving DecidableEq

/-- The arguments of the remote `create_issue` call: `Option` values keep
a passed Python `None` representable, so the no-null guarantee is a real
statement; `milestone = none` models `NotSet`. -/
structure IssueCreateArgs where
  title : String
  body : Option String
  labels : Option (List String)
  assignees : Option (List String)
  milestone : Option Int
  deriving DecidableEq

/-- `IssueManager.create_issue` (issues.py): falsy body, labels and
assignees are passed as empty string or empty list; a falsy milestone is
passed as `NotSet`. -/
def IssueManager.create_issue (config : IssueConfig) : IssueCreateArgs where
  title := config.title
  body := some (match config.body with
    | some b => if b = "" then "" else b
    | none => "")
  labels := some (match config.labels with
    | some l => if l = [] then [] else l
    | none => [])
  assignees := some (match config.assignees with
    | some a => if a = [] then [] else a
    | none => [])
  milestone := match config.milestone with
    | some m => if m = 0 then none else some m
    | none => none

/-- C8: creating an issue with a title but no body, no labels and no
assignees passes the empty string as body and empty lists as labels and
assignees to the remote create call — never a null value — and forwards
the title unchanged. -/
theorem C8_create_issue_empty_defaults (config : IssueConfig)
    (hb : config.body = none) (hl : config.labels = none)
    (ha : config.assignees = none) :
    (IssueManager.create_issue config).body = some "" ∧
    (IssueManager.create_issue config).labels = some [] ∧
    (IssueManager.create_issue config).assignees = some [] ∧
    (IssueManager.create_issue config).title = config.title := by
  refine ⟨?_, ?_, ?_, rfl⟩ <;> simp [IssueManager.create_issue, hb, hl, ha]

/-- Witness for C8 at the example scenario of the spec. -/
theorem C8_create_issue_empty_defaults_witness :
    (IssueManager.create_issue { title := "Fix login bug" }).body = some "" ∧
    (IssueManager.create_issue { title := "Fix login bug" }).labels = some [] ∧
    (IssueManager.create_issue { title := "Fix login bug" }).assignees = some [] ∧
    (IssueManager.create_issue { title := "Fix login bug" }).title = "Fix login bug" :=
  C8_create_issue_empty_defaults { title := "Fix login bug" } rfl rfl rfl

/-- `DefaultGitHubClientFactory` state (auth.py): `clients` caches the
constructed client per token string; `next` numbers constructions, so a
fresh construction is observable as an increment. -/
structure Factory where
  clients : List (String × Nat)
  next : Nat
  deriving DecidableEq

/-- `DefaultGitHubClientFactory.create_client` (auth.py): constructs and
caches a client on a cache miss, returns the cached client on a hit. -/
def Factory.create_client (f : Factory) (token : String) : Nat × Factory :=
  match f.clients.lookup token with
  | some c => (c, f)
  | none => (f.next, ⟨(token, f.next) :: f.clients, f.next + 1⟩)

/-- `DefaultGitHubClientFactory.clear_cache` (auth.py). -/
def Factory.clear_cache (f : Factory) : Factory := ⟨[], f.next⟩

/-- C9: on a factory with no cached client for `t`, the first
`create_client t` constructs a new client and caches it; the second call
returns the identical handle and leaves the factory unchanged (no new
construction); after `clear_cache`, the next call constructs a fresh
client. -/
theorem C9_client_cache_memoizes (f : Factory) (t : String)
    (h : f.clients.lookup t = none) :
    ((f.create_client t).1 = f.next ∧
     (f.create_client t).2.next = f.next + 1 ∧
     (f.create_client t).2.clients.lookup t = some f.next) ∧
    (((f.create_client t).2.create_client t).1 = (f.create_client t).1 ∧
     ((f.create_client t).2.create_client t).2 = (f.create_client t).2) ∧
    (((f.create_client t).2.clear_cache.create_client t).1 = (f.create_client t).2.next ∧
     ((f.create_client t).2.clear_cache.create_client t).1 ≠ (f.create_client t).1 ∧
     ((f.create_client t).2.clear_cache.create_client t).2.next =
       (f.create_client t).2.next + 1) := by
  refine ⟨⟨?_, ?_, ?_⟩, ⟨?_, ?_⟩, ⟨?_, ?_, ?_⟩⟩ <;>
    simp [Factory.create_client, Factory.clear_cache, h, List.lookup]

/-- Witness for C9 at the empty factory. -/
theorem C9_client_cache_memoizes_witness :
    ((Factory.create_client ⟨[], 0⟩ "tok").1 = 0 ∧
     (Factory.create_client ⟨[], 0⟩ "tok").2.next = 0 + 1 ∧
     (Factory.create_client ⟨[], 0⟩ "tok").2.clients.lookup "tok" = some 0) ∧
    (((Factory.create_client ⟨[], 0⟩ "tok").2.create_client "tok").1 =
       (Factory.create_client ⟨[], 0⟩ "tok").1 ∧
     ((Factory.create_client ⟨[], 0⟩ "tok").2.create_client "tok").2 =
       (Factory.create_client ⟨[], 0⟩ "tok").2) ∧
    (((Factory.create_client ⟨[], 0⟩ "tok").2.clear_cache.create_client "tok").1 =
       (Factory.create_client ⟨[], 0⟩ "tok").2.next ∧
     ((Factory.create_client ⟨[], 0⟩ "tok").2.clear_cache.create_client "tok").1 ≠
       (Factory.create_client ⟨[], 0⟩ "tok").1 ∧
     ((Factory.create_client ⟨[], 0⟩ "tok").2.clear_cache.create_client "tok").2.next =
       (Factory.create_client ⟨[], 0⟩ "tok").2.next + 1) :=
  C9_client_cache_memoizes ⟨[], 0⟩ "tok" rfl

/-- A PyGithub `ContentFile` as consumed by `get_file_contents`: the raw
`content` attribute (possibly `None`), the decoded text, and metadata. -/
structure ContentEntry where
  path : String
  content : Option String
  decoded : String
  sha : String
  size : Option Int
  type : Option String
  url : Option String
  git_url : Option String
  html_url : Option String
  download_url : Option String
  deriving DecidableEq

/-- `GetFileContentsConfig` dataclass (files.py). -/
structure GetFileContentsConfig where
  path : String
  branch : Option String := none
  deriving DecidableEq

/-- Oracle for `Repository.get_contents`: a directory listing (left) or a
single file (right); the second argument is the `ref`, `none` for
`NotSet`. -/
structure ContentsRemote where
  get_contents : String → Option String → Sum (List ContentEntry) ContentEntry

/-- The `FileContent` record built by `get_file_contents` from one remote
entry: the decoded text when the raw content is truthy, else the empty
string. -/
def contentEntryToFileContent (c : ContentEntry) : FileContent where
  path := c.path
  content := match c.content with
    | some raw => if raw = "" then "" else c.decoded
    | none => ""
  sha := some c.sha
  encoding := "utf-8"
  size := c.size
  type := c.type
  url := c.url
  html_url := c.html_url
  git_url := c.git_url
  download_url := c.download_url

/-- `FileManager.get_file_contents` (files.py): a falsy branch is passed
as `NotSet`; a directory listing raises a ValueError naming the path
unless the path is falsy or ends with a slash, in which case every entry
is converted; a single file is converted directly. -/
def FileManager.get_file_contents (r : ContentsRemote)
    (config : GetFileContentsConfig) :
    Except String (Sum (List FileContent) FileContent) :=
  let refArg : Option String := match config.branch with
    | some b => if b = "" then none else some b
    | none => none
  match r.get_contents config.path refArg with
  | .inl entries =>
    if config.path != "" && !strEndsWith config.path "/" then
      .error ("Path \x27" ++ config.path ++ "\x27 is a directory")
    else
      .ok (.inl (entries.map contentEntryToFileContent))
  | .inr c => .ok (.inr (contentEntryToFileContent c))

/-- C10: when the remote returns a directory listing, a non-empty path not
ending in a slash raises the ValueError naming the path as a directory,
while an empty path or a path ending in a slash returns one converted
`FileContent` per entry with no error. -/
theorem C10_get_file_contents_directory (r : ContentsRemote)
    (config : GetFileContentsConfig) (entries : List ContentEntry)
    (h : r.get_contents config.path (match config.branch with
          | some b => if b = "" then none else some b
          | none => none) = .inl entries) :
    (config.path ≠ "" → strEndsWith config.path "/" = false →
      FileManager.get_file_contents r config =
        .error ("Path \x27" ++ config.path ++ "\x27 is a directory")) ∧
    ((config.path = "" ∨ strEndsWith config.path "/" = true) →
      FileManager.get_file_contents r config =
        .ok (.inl (entries.map contentEntryToFileContent)) ∧
      (entries.map contentEntryToFileContent).length = entries.length) := by
  constructor
  · intro hne hsl
    simp [FileManager.get_file_contents, h, hne, hsl]
  · rintro (hp | hp)
    · refine ⟨?_, by simp⟩
      rw [hp] at h
      simp [FileManager.get_file_contents, hp, h]
    · refine ⟨?_, by simp⟩
      simp [FileManager.get_file_contents, h, hp]

/-- A concrete remote for C10 returning a one-entry directory listing for
every request. -/
def contentsRemoteW : ContentsRemote where
  get_contents := fun _ _ =>
    .inl [⟨"src/a.txt", some "QUJD", "ABC", "3333333333333333333333333333333333333333",
           some 3, some "file", none, none, none, none⟩]

/-- Witness for C10: a non-empty path without a trailing slash on a
directory listing yields the ValueError message. -/
theorem C10_get_file_contents_directory_witness :
    FileManager.get_file_contents contentsRemoteW { path := "src" } =
      .error ("Path \x27" ++ "src" ++ "\x27 is a directory") :=
  (C10_get_file_contents_directory contentsRemoteW { path := "src" }
    [⟨"src/a.txt", some "QUJD", "ABC", "3333333333333333333333333333333333333333",
      some 3, some "file", none, none, none, none⟩] rfl).1 (by decide) rfl
